import Mathlib

/-!
Shallow embedding of the Soroban to-do-list contract
(`src/Wmon/contracts/Wtodolist/src/lib.rs`) and proofs of the spec's claims.

The contract's instance storage holds three kinds of entries:
  * `u32 → Task` records (one per task id),
  * `Address → Vec<u32>` owner-index entries,
  * a `next_id : u32` counter under the reserved key `NEXT_ID_KEY`.
We model the storage as three association lists (soroban `set` overwrites in
place, which `kvSet` mirrors).  Addresses are opaque identities, modelled as
`Nat`.  `require_auth` is host-attested authentication outside the contract's
error taxonomy; every operation below models the behaviour after that
attestation succeeded, exactly as the Rust bodies do.
-/

namespace ToDoList

/-- `TaskStatus` from the contract: `Completed | Pending | Deleted`. -/
inductive TaskStatus where
  | Completed
  | Pending
  | Deleted
deriving DecidableEq, Repr

/-- Addresses are opaque identities; `Nat` with decidable equality. -/
abbrev Addr := Nat

/-- The `Task` record of the contract. -/
structure Task where
  id : Nat
  description : String
  owner : Addr
  status : TaskStatus
  timestamp : Nat
deriving DecidableEq, Repr

/-- The `TaskError` enum of the contract. -/
inductive TaskError where
  | TaskNotFound
  | InvalidTaskData
  | Unauthorized
  | TaskAlreadyCompleted
deriving DecidableEq, Repr

/-- Association-list lookup, modelling `env.storage().instance().get(&k)`. -/
def kvGet {α β : Type} [DecidableEq α] (m : List (α × β)) (k : α) : Option β :=
  match m with
  | [] => none
  | (k1, v) :: rest => if k1 = k then some v else kvGet rest k

/-- Association-list overwrite, modelling `env.storage().instance().set(&k, &v)`. -/
def kvSet {α β : Type} [DecidableEq α] (m : List (α × β)) (k : α) (v : β) :
    List (α × β) :=
  match m with
  | [] => [(k, v)]
  | (k1, v1) :: rest => if k1 = k then (k, v) :: rest else (k1, v1) :: kvSet rest k v

/-- The contract's instance storage: task records keyed by id, the owner
index keyed by address, and the `NEXT_ID_KEY` slot. -/
structure Store where
  tasks : List (Nat × Task)
  ownerIndex : List (Addr × List Nat)
  nextId : Option Nat
deriving DecidableEq, Repr

/-- Fresh contract storage: nothing is set. -/
def Store.empty : Store := ⟨[], [], none⟩

/-- `get_next_task_id`: the `NEXT_ID_KEY` slot, defaulting to 1. -/
def get_next_task_id (s : Store) : Nat :=
  s.nextId.getD 1

/-- `get_task_by_id`: direct lookup of a task record. -/
def get_task_by_id (s : Store) (task_id : Nat) : Option Task :=
  kvGet s.tasks task_id

/-- `add_task`: validate the description, allocate the next id, persist the
task, append the id to the owner's index entry, advance the counter.
`ts` is `env.ledger().timestamp()`. -/
def add_task (s : Store) (ts : Nat) (description : String) (owner : Addr) :
    Except TaskError Nat × Store :=
  if description.length = 0 then (.error .InvalidTaskData, s)
  else
    let next_id := get_next_task_id s
    let new_task : Task :=
      { id := next_id, description := description, owner := owner
        status := .Pending, timestamp := ts }
    let tasks1 := kvSet s.tasks next_id new_task
    let owner_tasks := (kvGet s.ownerIndex owner).getD []
    let index1 := kvSet s.ownerIndex owner (owner_tasks ++ [next_id])
    (.ok next_id, { tasks := tasks1, ownerIndex := index1, nextId := some (next_id + 1) })

/-- `task_completed`: not-found, then owner, then already-Completed checks;
on success persist the task with status `Completed`. -/
def task_completed (s : Store) (task_id : Nat) (caller : Addr) :
    Except TaskError Unit × Store :=
  match get_task_by_id s task_id with
  | none => (.error .TaskNotFound, s)
  | some task =>
    if task.owner ≠ caller then (.error .Unauthorized, s)
    else if task.status = .Completed then (.error .TaskAlreadyCompleted, s)
    else (.ok (), { s with tasks := kvSet s.tasks task_id { task with status := .Completed } })

/-- `update_task_description`: not-found, then owner, then empty-description,
then not-Pending checks; on success persist the new description. -/
def update_task_description (s : Store) (task_id : Nat) (caller : Addr)
    (new_description : String) : Except TaskError Unit × Store :=
  match get_task_by_id s task_id with
  | none => (.error .TaskNotFound, s)
  | some task =>
    if task.owner ≠ caller then (.error .Unauthorized, s)
    else if new_description.length = 0 then (.error .InvalidTaskData, s)
    else if task.status ≠ .Pending then (.error .TaskAlreadyCompleted, s)
    else (.ok (), { s with tasks := kvSet s.tasks task_id { task with description := new_description } })

/-- `task_deleted` (soft delete): not-found then owner checks; on success
persist the task with status `Deleted`.  No restriction on current status. -/
def task_deleted (s : Store) (task_id : Nat) (caller : Addr) :
    Except TaskError Unit × Store :=
  match get_task_by_id s task_id with
  | none => (.error .TaskNotFound, s)
  | some task =>
    if task.owner ≠ caller then (.error .Unauthorized, s)
    else (.ok (), { s with tasks := kvSet s.tasks task_id { task with status := .Deleted } })

/-- `transfer_ownership`: not-found then owner checks; on success persist the
task with the new owner.  The owner index is NOT updated (noted in the
source). -/
def transfer_ownership (s : Store) (task_id : Nat) (caller : Addr)
    (new_owner : Addr) : Except TaskError Unit × Store :=
  match get_task_by_id s task_id with
  | none => (.error .TaskNotFound, s)
  | some task =>
    if task.owner ≠ caller then (.error .Unauthorized, s)
    else (.ok (), { s with tasks := kvSet s.tasks task_id { task with owner := new_owner } })

deriving instance DecidableEq for Except

/-- The shared loop body of both query functions: fetch the task at `task_id`
and push it onto the accumulator unless it is absent or `Deleted`
(`tasks.push_back(task)` in the source). -/
def push_if_live (s : Store) (acc : List Task) (task_id : Nat) : List Task :=
  match get_task_by_id s task_id with
  | some task => if task.status ≠ .Deleted then acc ++ [task] else acc
  | none => acc

/-- `get_tasks_by_owner`: resolve the owner-index entry and collect its
non-`Deleted` tasks in index order; absent entry gives the empty list. -/
def get_tasks_by_owner (s : Store) (owner : Addr) : List Task :=
  match kvGet s.ownerIndex owner with
  | some task_ids => task_ids.foldl (push_if_live s) []
  | none => []

/-- `get_all`: iterate ids `1..last_id` (i.e. `1` to `get_next_task_id - 1`)
and collect the non-`Deleted` tasks in ascending id order. -/
def get_all (s : Store) : List Task :=
  (List.range' 1 (get_next_task_id s - 1)).foldl (push_if_live s) []

/-- Sequencing of `add_task` calls, for reasoning about runs of creations:
each element of `inputs` is `(description, owner, ledger timestamp)`. -/
def run_adds (s : Store) (inputs : List (String × Addr × Nat)) :
    List (Except TaskError Nat) × Store :=
  match inputs with
  | [] => ([], s)
  | (d, o, ts) :: rest =>
    let r := add_task s ts d o
    let rest1 := run_adds r.2 rest
    (r.1 :: rest1.1, rest1.2)

/-! ### Lemmas about the storage model -/

theorem kvGet_kvSet_self {α β : Type} [DecidableEq α] (m : List (α × β)) (k : α)
    (v : β) : kvGet (kvSet m k v) k = some v := by
  induction m with
  | nil => simp [kvGet, kvSet]
  | cons hd tl ih =>
    obtain ⟨k1, v1⟩ := hd
    by_cases h : k1 = k <;> simp [kvGet, kvSet, h, ih]

theorem kvGet_kvSet_ne {α β : Type} [DecidableEq α] (m : List (α × β)) (k j : α)
    (v : β) (hne : j ≠ k) : kvGet (kvSet m k v) j = kvGet m j := by
  have hkj : ¬ k = j := fun h => hne h.symm
  induction m with
  | nil => simp [kvGet, kvSet, hkj]
  | cons hd tl ih =>
    obtain ⟨k1, v1⟩ := hd
    by_cases h : k1 = k
    · subst h
      simp [kvGet, kvSet, hkj]
    · by_cases h2 : k1 = j <;> simp [kvGet, kvSet, h, h2, ih, hne]

theorem kvSet_self {α β : Type} [DecidableEq α] (m : List (α × β)) (k : α)
    (v : β) (h : kvGet m k = some v) : kvSet m k v = m := by
  induction m with
  | nil => simp [kvGet] at h
  | cons hd tl ih =>
    obtain ⟨k1, v1⟩ := hd
    by_cases h1 : k1 = k
    · subst h1
      simp [kvGet] at h
      simp [kvSet, h]
    · simp [kvGet, h1] at h
      simp [kvSet, h1, ih h]

/-- Accumulator form of the shared query loop: folding `push_if_live` appends
exactly the non-`Deleted` fetched tasks. -/
def live_view (s : Store) (task_id : Nat) : Option Task :=
  match get_task_by_id s task_id with
  | some task => if task.status ≠ .Deleted then some task else none
  | none => none

theorem push_if_live_eq (s : Store) (acc : List Task) (i : Nat) :
    push_if_live s acc i = acc ++ (live_view s i).toList := by
  unfold push_if_live live_view
  cases hg : get_task_by_id s i with
  | none => simp
  | some t => by_cases hs : t.status = .Deleted <;> simp [hs]

theorem foldl_push_if_live (s : Store) (l : List Nat) (acc : List Task) :
    l.foldl (push_if_live s) acc = acc ++ l.filterMap (live_view s) := by
  induction l generalizing acc with
  | nil => simp
  | cons hd tl ih =>
    rw [List.foldl_cons, push_if_live_eq, ih]
    cases h : live_view s hd <;> simp [h, List.filterMap_cons]

/-! ### Concrete example stores

The scenario of the spec's test plan (and of `test_get_all_filters_deleted`
in `test.rs`): owner 0 creates T1 and T2 and completes T2; owner 1 creates
T3 and deletes it, then creates T4.  All at ledger timestamp 7. -/

def sT1 : Store := (add_task Store.empty 7 "T1" 0).2

def sT2 : Store := (add_task sT1 7 "T2" 0).2

def sT2c : Store := (task_completed sT2 2 0).2

def sT3 : Store := (add_task sT2c 7 "T3" 1).2

def sT3d : Store := (task_deleted sT3 3 1).2

def sT4 : Store := (add_task sT3d 7 "T4" 1).2

/-- The task record T1 as it sits in the store after the scenario. -/
def exTask1 : Task := ⟨1, "T1", 0, .Pending, 7⟩

/-- T2 after completion. -/
def exTask2c : Task := ⟨2, "T2", 0, .Completed, 7⟩

/-- T4 as created. -/
def exTask4 : Task := ⟨4, "T4", 1, .Pending, 7⟩

/-! ### Claim theorems -/

/-- C6: `task_completed` runs its checks in the fixed order
not-found → unauthorized → already-completed and returns the first violated
one; otherwise it succeeds, the persisted task's status becomes `Completed`,
and a second identical call fails with `TaskAlreadyCompleted` instead of
applying again. -/
theorem task_completed_check_order (s : Store) (task_id : Nat) (caller : Addr) :
    (get_task_by_id s task_id = none →
      task_completed s task_id caller = (.error .TaskNotFound, s)) ∧
    (∀ t, get_task_by_id s task_id = some t → t.owner ≠ caller →
      task_completed s task_id caller = (.error .Unauthorized, s)) ∧
    (∀ t, get_task_by_id s task_id = some t → t.owner = caller →
      t.status = .Completed →
      task_completed s task_id caller = (.error .TaskAlreadyCompleted, s)) ∧
    (∀ t, get_task_by_id s task_id = some t → t.owner = caller →
      t.status ≠ .Completed →
      (task_completed s task_id caller).1 = .ok () ∧
      get_task_by_id (task_completed s task_id caller).2 task_id =
        some { t with status := .Completed } ∧
      (task_completed (task_completed s task_id caller).2 task_id caller).1 =
        .error .TaskAlreadyCompleted) := by
  refine ⟨?_, ?_, ?_, ?_⟩
  · intro h
    simp [task_completed, h]
  · intro t ht howner
    simp [task_completed, ht, howner]
  · intro t ht howner hst
    simp [task_completed, ht, howner, hst]
  · intro t ht howner hst
    have hrun : task_completed s task_id caller =
        (.ok (), { s with tasks := kvSet s.tasks task_id { t with status := .Completed } }) := by
      simp [task_completed, ht, howner, hst]
    refine ⟨by rw [hrun], ?_, ?_⟩
    · rw [hrun]
      simp [get_task_by_id, kvGet_kvSet_self]
    · rw [hrun]
      simp [task_completed, get_task_by_id, kvGet_kvSet_self, howner]

/-- Witness for C6 at concrete inputs: in the scenario store, completing the
unknown id 99 fails with `TaskNotFound`, and completing task 1 as owner 0
succeeds. -/
theorem task_completed_check_order_witness :
    task_completed sT4 99 0 = (.error .TaskNotFound, sT4) ∧
    (task_completed sT4 1 0).1 = .ok () := by
  constructor
  · exact (task_completed_check_order sT4 99 0).1 (by decide)
  · exact ((task_completed_check_order sT4 1 0).2.2.2 exTask1 (by decide) (by decide)
      (by decide)).1

/-- C4: `update_task_description` runs its checks in the fixed order
not-found → unauthorized → empty-description → not-Pending and returns the
first violated one; otherwise it succeeds and the description becomes the new
one.  In particular an owner mismatch combined with an empty new description
yields `Unauthorized`, not `InvalidTaskData`. -/
theorem update_task_description_check_order (s : Store) (task_id : Nat)
    (caller : Addr) (nd : String) :
    (get_task_by_id s task_id = none →
      update_task_description s task_id caller nd = (.error .TaskNotFound, s)) ∧
    (∀ t, get_task_by_id s task_id = some t → t.owner ≠ caller →
      update_task_description s task_id caller nd = (.error .Unauthorized, s)) ∧
    (∀ t, get_task_by_id s task_id = some t → t.owner = caller →
      nd.length = 0 →
      update_task_description s task_id caller nd = (.error .InvalidTaskData, s)) ∧
    (∀ t, get_task_by_id s task_id = some t → t.owner = caller →
      nd.length ≠ 0 → t.status ≠ .Pending →
      update_task_description s task_id caller nd = (.error .TaskAlreadyCompleted, s)) ∧
    (∀ t, get_task_by_id s task_id = some t → t.owner = caller →
      nd.length ≠ 0 → t.status = .Pending →
      (update_task_description s task_id caller nd).1 = .ok () ∧
      get_task_by_id (update_task_description s task_id caller nd).2 task_id =
        some { t with description := nd }) := by
  refine ⟨?_, ?_, ?_, ?_, ?_⟩
  · intro h
    simp [update_task_description, h]
  · intro t ht howner
    simp [update_task_description, ht, howner]
  · intro t ht howner hnd
    simp [update_task_description, ht, howner, hnd]
  · intro t ht howner hnd hst
    simp [update_task_description, ht, howner, hnd, hst]
  · intro t ht howner hnd hst
    have hrun : update_task_description s task_id caller nd =
        (.ok (), { s with tasks := kvSet s.tasks task_id { t with description := nd } }) := by
      simp [update_task_description, ht, howner, hnd, hst]
    refine ⟨by rw [hrun], ?_⟩
    rw [hrun]
    simp [get_task_by_id, kvGet_kvSet_self]

/-- Witness for C4 at concrete inputs: updating task 1 (owner 0) as the
non-owner 5 with an empty description yields `Unauthorized` (not
`InvalidTaskData`), and a proper update by the owner succeeds. -/
theorem update_task_description_check_order_witness :
    update_task_description sT4 1 5 "" = (.error .Unauthorized, sT4) ∧
    (update_task_description sT4 1 0 "New").1 = .ok () := by
  constructor
  · exact (update_task_description_check_order sT4 1 5 "").2.1 exTask1 (by decide)
      (by decide)
  · exact ((update_task_description_check_order sT4 1 0 "New").2.2.2.2 exTask1
      (by decide) (by decide) (by decide) (by decide)).1

/-- C7: `add_task` with an empty description fails with `InvalidTaskData`,
leaves the whole store (hence the next-id counter) unchanged, and leaves the
lookup at the would-be id exactly as it was. -/
theorem add_task_empty_description (s : Store) (ts : Nat) (d : String)
    (o : Addr) (hd : d.length = 0) :
    add_task s ts d o = (.error .InvalidTaskData, s) ∧
    get_next_task_id (add_task s ts d o).2 = get_next_task_id s ∧
    get_task_by_id (add_task s ts d o).2 (get_next_task_id s) =
      get_task_by_id s (get_next_task_id s) := by
  have h : add_task s ts d o = (.error .InvalidTaskData, s) := by
    simp [add_task, hd]
  exact ⟨h, by rw [h], by rw [h]⟩

/-- Witness for C7: creating a task with the empty description on the fresh
store fails with `InvalidTaskData` and changes nothing. -/
theorem add_task_empty_description_witness :
    add_task Store.empty 0 "" 3 = (.error .InvalidTaskData, Store.empty) :=
  (add_task_empty_description Store.empty 0 "" 3 (by decide)).1

/-- C10: soft delete is idempotent at the public interface: whenever
`task_deleted` succeeds, a second identical call on the now-`Deleted` task
also succeeds and leaves the store exactly as after the first call. -/
theorem task_deleted_idempotent (s : Store) (task_id : Nat) (caller : Addr)
    (h : (task_deleted s task_id caller).1 = .ok ()) :
    task_deleted (task_deleted s task_id caller).2 task_id caller =
      (.ok (), (task_deleted s task_id caller).2) := by
  cases hg : get_task_by_id s task_id with
  | none => simp [task_deleted, hg] at h
  | some t =>
    by_cases ho : t.owner = caller
    · subst ho
      have hrun : task_deleted s task_id t.owner =
          (.ok (), { s with tasks := kvSet s.tasks task_id { t with status := .Deleted } }) := by
        simp [task_deleted, hg]
      rw [hrun]
      have hget : get_task_by_id
          { s with tasks := kvSet s.tasks task_id { t with status := .Deleted } } task_id =
          some { t with status := .Deleted } := by
        simp [get_task_by_id, kvGet_kvSet_self]
      have hself : kvSet (kvSet s.tasks task_id { t with status := .Deleted }) task_id
          { t with status := .Deleted } = kvSet s.tasks task_id { t with status := .Deleted } :=
        kvSet_self _ _ _ (kvGet_kvSet_self _ _ _)
      simp [task_deleted, hget, hself]
    · simp [task_deleted, hg, ho] at h

/-- Witness for C10: deleting task 3 a second time in the scenario store
succeeds and leaves the store as after the first deletion. -/
theorem task_deleted_idempotent_witness :
    task_deleted (task_deleted sT3 3 1).2 3 1 = (.ok (), (task_deleted sT3 3 1).2) :=
  task_deleted_idempotent sT3 3 1 (by decide)

theorem add_task_error_frame (s : Store) (ts : Nat) (d : String) (o : Addr)
    (e : TaskError) (he : (add_task s ts d o).1 = .error e) :
    (add_task s ts d o).2 = s := by
  by_cases hd : d.length = 0
  · simp [add_task, hd]
  · simp [add_task, hd] at he

theorem task_completed_error_frame (s : Store) (task_id : Nat) (caller : Addr)
    (e : TaskError) (he : (task_completed s task_id caller).1 = .error e) :
    (task_completed s task_id caller).2 = s := by
  cases hg : get_task_by_id s task_id with
  | none => simp [task_completed, hg]
  | some t =>
    by_cases ho : t.owner = caller
    · by_cases hst : t.status = .Completed
      · simp [task_completed, hg, ho, hst]
      · simp [task_completed, hg, ho, hst] at he
    · simp [task_completed, hg, ho]

theorem update_task_description_error_frame (s : Store) (task_id : Nat)
    (caller : Addr) (nd : String) (e : TaskError)
    (he : (update_task_description s task_id caller nd).1 = .error e) :
    (update_task_description s task_id caller nd).2 = s := by
  cases hg : get_task_by_id s task_id with
  | none => simp [update_task_description, hg]
  | some t =>
    by_cases ho : t.owner = caller
    · by_cases hnd : nd.length = 0
      · simp [update_task_description, hg, ho, hnd]
      · by_cases hst : t.status = .Pending
        · simp [update_task_description, hg, ho, hnd, hst] at he
        · simp [update_task_description, hg, ho, hnd, hst]
    · simp [update_task_description, hg, ho]

theorem task_deleted_error_frame (s : Store) (task_id : Nat) (caller : Addr)
    (e : TaskError) (he : (task_deleted s task_id caller).1 = .error e) :
    (task_deleted s task_id caller).2 = s := by
  cases hg : get_task_by_id s task_id with
  | none => simp [task_deleted, hg]
  | some t =>
    by_cases ho : t.owner = caller
    · simp [task_deleted, hg, ho] at he
    · simp [task_deleted, hg, ho]

theorem transfer_ownership_error_frame (s : Store) (task_id : Nat)
    (caller new_owner : Addr) (e : TaskError)
    (he : (transfer_ownership s task_id caller new_owner).1 = .error e) :
    (transfer_ownership s task_id caller new_owner).2 = s := by
  cases hg : get_task_by_id s task_id with
  | none => simp [transfer_ownership, hg]
  | some t =>
    by_cases ho : t.owner = caller
    · simp [transfer_ownership, hg, ho] at he
    · simp [transfer_ownership, hg, ho]

/-- C5: every mutating operation is atomic on failure — whenever it returns
an error the store is exactly as before the call — and the checks of the
four record operations run existence first, then ownership, returning the
first violated condition; `add_task`'s only engine-level check is the
data-validity one. -/
theorem mutating_ops_first_error_and_atomic (s : Store) (task_id : Nat)
    (caller new_owner : Addr) (ts : Nat) (d : String) :
    (∀ e, (add_task s ts d caller).1 = .error e → (add_task s ts d caller).2 = s) ∧
    (∀ e, (task_completed s task_id caller).1 = .error e →
      (task_completed s task_id caller).2 = s) ∧
    (∀ e, (update_task_description s task_id caller d).1 = .error e →
      (update_task_description s task_id caller d).2 = s) ∧
    (∀ e, (task_deleted s task_id caller).1 = .error e →
      (task_deleted s task_id caller).2 = s) ∧
    (∀ e, (transfer_ownership s task_id caller new_owner).1 = .error e →
      (transfer_ownership s task_id caller new_owner).2 = s) ∧
    (get_task_by_id s task_id = none →
      (task_completed s task_id caller).1 = .error .TaskNotFound ∧
      (update_task_description s task_id caller d).1 = .error .TaskNotFound ∧
      (task_deleted s task_id caller).1 = .error .TaskNotFound ∧
      (transfer_ownership s task_id caller new_owner).1 = .error .TaskNotFound) ∧
    (∀ t, get_task_by_id s task_id = some t → t.owner ≠ caller →
      (task_completed s task_id caller).1 = .error .Unauthorized ∧
      (update_task_description s task_id caller d).1 = .error .Unauthorized ∧
      (task_deleted s task_id caller).1 = .error .Unauthorized ∧
      (transfer_ownership s task_id caller new_owner).1 = .error .Unauthorized) ∧
    (d.length = 0 → (add_task s ts d caller).1 = .error .InvalidTaskData) := by
  refine ⟨?_, ?_, ?_, ?_, ?_, ?_, ?_, ?_⟩
  · exact fun e he => add_task_error_frame s ts d caller e he
  · exact fun e he => task_completed_error_frame s task_id caller e he
  · exact fun e he => update_task_description_error_frame s task_id caller d e he
  · exact fun e he => task_deleted_error_frame s task_id caller e he
  · exact fun e he => transfer_ownership_error_frame s task_id caller new_owner e he
  · intro hg
    refine ⟨?_, ?_, ?_, ?_⟩ <;>
      simp [task_completed, update_task_description, task_deleted,
        transfer_ownership, hg]
  · intro t hg howner
    refine ⟨?_, ?_, ?_, ?_⟩ <;>
      simp [task_completed, update_task_description, task_deleted,
        transfer_ownership, hg, howner]
  · intro hd
    simp [add_task, hd]

/-- Witness for C5 at concrete inputs: in the scenario store, a failing
complete (wrong owner) and a failing update leave the store untouched and
report `Unauthorized` first; a failing create leaves it untouched too. -/
theorem mutating_ops_first_error_and_atomic_witness :
    (task_completed sT4 1 5).2 = sT4 ∧
    (task_completed sT4 1 5).1 = .error .Unauthorized ∧
    (add_task sT4 0 "" 5).2 = sT4 ∧
    (update_task_description sT4 99 5 "x").1 = .error .TaskNotFound := by
  refine ⟨?_, ?_, ?_, ?_⟩
  · exact (mutating_ops_first_error_and_atomic sT4 1 5 5 0 "").2.1 .Unauthorized
      (by decide)
  · exact ((mutating_ops_first_error_and_atomic sT4 1 5 5 0 "").2.2.2.2.2.2.1
      exTask1 (by decide) (by decide)).1
  · exact (mutating_ops_first_error_and_atomic sT4 1 5 5 0 "").1 .InvalidTaskData
      (by decide)
  · exact ((mutating_ops_first_error_and_atomic sT4 99 5 5 0 "x").2.2.2.2.2.1
      (by decide)).2.1

/-- C8: `get_all` is exactly the ascending-id sweep of ids 1 to
next-id − 1, keeping each existing non-`Deleted` record; on the spec's
scenario (T1 Pending, T2 Completed, T3 Deleted, T4 Pending) it returns
[T1, T2, T4], of length 3. -/
theorem get_all_spec :
    (∀ s : Store, get_all s =
      (List.range' 1 (get_next_task_id s - 1)).filterMap (live_view s)) ∧
    get_all sT4 = [exTask1, exTask2c, exTask4] ∧
    (get_all sT4).length = 3 := by
  refine ⟨?_, by decide, by decide⟩
  intro s
  unfold get_all
  rw [foldl_push_if_live]
  simp

/-- C9: `get_tasks_by_owner` resolves the owner-index entry and returns, in
the entry's insertion order, the existing tasks with status other than
`Deleted`; an absent entry gives the empty sequence. -/
theorem get_tasks_by_owner_spec (s : Store) (owner : Addr) :
    (kvGet s.ownerIndex owner = none → get_tasks_by_owner s owner = []) ∧
    (∀ task_ids, kvGet s.ownerIndex owner = some task_ids →
      get_tasks_by_owner s owner = task_ids.filterMap (live_view s)) := by
  constructor
  · intro h
    simp [get_tasks_by_owner, h]
  · intro task_ids h
    unfold get_tasks_by_owner
    rw [h]
    dsimp only
    rw [foldl_push_if_live]
    simp

/-- Witness for C9 at concrete inputs: in the scenario store owner 0's index
entry is [1, 2] and the query returns T1 and the completed T2; the index
lists the deleted task 3 for owner 1 yet the query skips it; identity 5 has
no entry and gets the empty sequence. -/
theorem get_tasks_by_owner_spec_witness :
    get_tasks_by_owner sT4 0 = [exTask1, exTask2c] ∧
    get_tasks_by_owner sT4 1 = [exTask4] ∧
    get_tasks_by_owner sT4 5 = [] := by
  refine ⟨?_, ?_, ?_⟩
  · exact ((get_tasks_by_owner_spec sT4 0).2 [1, 2] (by decide)).trans (by decide)
  · exact ((get_tasks_by_owner_spec sT4 1).2 [3, 4] (by decide)).trans (by decide)
  · exact (get_tasks_by_owner_spec sT4 5).1 (by decide)

theorem run_adds_append (s : Store) (l1 l2 : List (String × Addr × Nat)) :
    run_adds s (l1 ++ l2) =
      ((run_adds s l1).1 ++ (run_adds (run_adds s l1).2 l2).1,
        (run_adds (run_adds s l1).2 l2).2) := by
  induction l1 generalizing s with
  | nil => simp [run_adds]
  | cons hd tl ih =>
    obtain ⟨d, o, ts⟩ := hd
    simp [run_adds, ih]

/-- A run of `add_task` calls whose descriptions are all non-empty: every
call returns `ok` with the consecutive ids, and the counter advances by one
per call. -/
theorem run_adds_nonempty (inputs : List (String × Addr × Nat)) (s : Store)
    (hall : ∀ i ∈ inputs, i.1.length ≠ 0) :
    (run_adds s inputs).1 =
      (List.range' (get_next_task_id s) inputs.length).map Except.ok ∧
    get_next_task_id (run_adds s inputs).2 = get_next_task_id s + inputs.length := by
  induction inputs generalizing s with
  | nil => simp [run_adds]
  | cons hd tl ih =>
    obtain ⟨d, o, ts⟩ := hd
    have hd0 : ¬ d.length = 0 := by
      have := hall ⟨d, o, ts⟩ (by simp)
      simpa using this
    have hok : (add_task s ts d o).1 = .ok (get_next_task_id s) := by
      simp [add_task, hd0]
    have hnext : get_next_task_id (add_task s ts d o).2 = get_next_task_id s + 1 := by
      simp [add_task, hd0, get_next_task_id]
    have ihh := ih (add_task s ts d o).2 (fun i hi => hall i (by simp [hi]))
    rw [hnext] at ihh
    constructor
    · simp only [run_adds, List.length_cons, List.range'_succ, List.map_cons]
      rw [hok, ihh.1]
    · simp only [run_adds, List.length_cons]
      rw [ihh.2]
      omega

/-- C3: from the fresh store, any sequence of `add_task` calls with
non-empty descriptions returns the strictly increasing ids 1, 2, …
(the counter starts at 1 and advances by one per successful creation), and
immediately after each call the returned id resolves to a task with that id,
status `Pending`, and the given description, owner and timestamp.  (The last
call of an arbitrary successful prefix is the generic "each call".) -/
theorem add_task_run_spec (pre : List (String × Addr × Nat))
    (x : String × Addr × Nat) (hall : ∀ i ∈ pre ++ [x], i.1.length ≠ 0) :
    (run_adds Store.empty (pre ++ [x])).1 =
      (List.range' 1 (pre.length + 1)).map Except.ok ∧
    get_next_task_id (run_adds Store.empty (pre ++ [x])).2 = pre.length + 2 ∧
    get_task_by_id (run_adds Store.empty (pre ++ [x])).2 (pre.length + 1) =
      some ⟨pre.length + 1, x.1, x.2.1, .Pending, x.2.2⟩ := by
  obtain ⟨d, o, ts⟩ := x
  have hpre : ∀ i ∈ pre, i.1.length ≠ 0 := fun i hi => hall i (by simp [hi])
  have hx : ¬ d.length = 0 := by
    have := hall ⟨d, o, ts⟩ (by simp)
    simpa using this
  obtain ⟨hres, hnext⟩ := run_adds_nonempty pre Store.empty hpre
  have hk : get_next_task_id Store.empty = 1 := rfl
  rw [hk] at hres hnext
  have happ := run_adds_append Store.empty pre [⟨d, o, ts⟩]
  set s1 := (run_adds Store.empty pre).2 with hs1
  have hok : (add_task s1 ts d o).1 = .ok (get_next_task_id s1) := by
    simp [add_task, hx]
  have hget : get_task_by_id (add_task s1 ts d o).2 (get_next_task_id s1) =
      some ⟨get_next_task_id s1, d, o, .Pending, ts⟩ := by
    simp [add_task, hx, get_task_by_id, kvGet_kvSet_self]
  have hnext2 : get_next_task_id (add_task s1 ts d o).2 = get_next_task_id s1 + 1 := by
    simp [add_task, hx, get_next_task_id]
  have hone : run_adds s1 [(⟨d, o, ts⟩ : String × Addr × Nat)] =
      ([(add_task s1 ts d o).1], (add_task s1 ts d o).2) := by
    simp [run_adds]
  rw [happ, hone]
  refine ⟨?_, ?_, ?_⟩
  · rw [hres, hok, hnext]
    rw [List.range'_concat]
    simp
  · rw [hnext2, hnext]
    omega
  · rw [hnext, Nat.add_comm 1 pre.length] at hget
    simpa using hget

/-- Witness for C3: the scenario prefix [("a",0,5)] followed by ("b",1,6)
yields the ids [1, 2], counter 3, and task 2 is immediately retrievable as
created. -/
theorem add_task_run_spec_witness :
    (run_adds Store.empty ([("a", 0, 5)] ++ [("b", 1, 6)])).1 =
      (List.range' 1 2).map Except.ok ∧
    get_next_task_id (run_adds Store.empty ([("a", 0, 5)] ++ [("b", 1, 6)])).2 = 3 ∧
    get_task_by_id (run_adds Store.empty ([("a", 0, 5)] ++ [("b", 1, 6)])).2 2 =
      some ⟨2, "b", 1, .Pending, 6⟩ :=
  add_task_run_spec [("a", 0, 5)] ("b", 1, 6) (by decide)

/-! ### Post-state characterizations of the four record operations -/

theorem task_completed_cases (s : Store) (task_id : Nat) (caller : Addr) :
    (task_completed s task_id caller).2 = s ∨
    ∃ t, get_task_by_id s task_id = some t ∧ t.owner = caller ∧
      t.status ≠ .Completed ∧
      (task_completed s task_id caller).2 =
        { s with tasks := kvSet s.tasks task_id { t with status := .Completed } } := by
  cases hg : get_task_by_id s task_id with
  | none => exact .inl (by simp [task_completed, hg])
  | some t =>
    by_cases ho : t.owner = caller
    · by_cases hst : t.status = .Completed
      · exact .inl (by simp [task_completed, hg, ho, hst])
      · exact .inr ⟨t, rfl, ho, hst, by simp [task_completed, hg, ho, hst]⟩
    · exact .inl (by simp [task_completed, hg, ho])

theorem update_task_description_cases (s : Store) (task_id : Nat)
    (caller : Addr) (nd : String) :
    (update_task_description s task_id caller nd).2 = s ∨
    ∃ t, get_task_by_id s task_id = some t ∧ t.owner = caller ∧
      nd.length ≠ 0 ∧ t.status = .Pending ∧
      (update_task_description s task_id caller nd).2 =
        { s with tasks := kvSet s.tasks task_id { t with description := nd } } := by
  cases hg : get_task_by_id s task_id with
  | none => exact .inl (by simp [update_task_description, hg])
  | some t =>
    by_cases ho : t.owner = caller
    · by_cases hnd : nd.length = 0
      · exact .inl (by simp [update_task_description, hg, ho, hnd])
      · by_cases hst : t.status = .Pending
        · exact .inr ⟨t, rfl, ho, hnd, hst, by simp [update_task_description, hg, ho, hnd, hst]⟩
        · exact .inl (by simp [update_task_description, hg, ho, hnd, hst])
    · exact .inl (by simp [update_task_description, hg, ho])

theorem task_deleted_cases (s : Store) (task_id : Nat) (caller : Addr) :
    (task_deleted s task_id caller).2 = s ∨
    ∃ t, get_task_by_id s task_id = some t ∧ t.owner = caller ∧
      (task_deleted s task_id caller).2 =
        { s with tasks := kvSet s.tasks task_id { t with status := .Deleted } } := by
  cases hg : get_task_by_id s task_id with
  | none => exact .inl (by simp [task_deleted, hg])
  | some t =>
    by_cases ho : t.owner = caller
    · exact .inr ⟨t, rfl, ho, by simp [task_deleted, hg, ho]⟩
    · exact .inl (by simp [task_deleted, hg, ho])

theorem transfer_ownership_cases (s : Store) (task_id : Nat)
    (caller new_owner : Addr) :
    (transfer_ownership s task_id caller new_owner).2 = s ∨
    ∃ t, get_task_by_id s task_id = some t ∧ t.owner = caller ∧
      (transfer_ownership s task_id caller new_owner).2 =
        { s with tasks := kvSet s.tasks task_id { t with owner := new_owner } } := by
  cases hg : get_task_by_id s task_id with
  | none => exact .inl (by simp [transfer_ownership, hg])
  | some t =>
    by_cases ho : t.owner = caller
    · exact .inr ⟨t, rfl, ho, by simp [transfer_ownership, hg, ho]⟩
    · exact .inl (by simp [transfer_ownership, hg, ho])

/-- Counterexample to C1 as stated: `Deleted` is not terminal.  In the
scenario store, task 3 is `Deleted`, yet `task_completed` by its owner
succeeds and flips its status to `Completed`. -/
theorem deleted_status_not_terminal :
    (get_task_by_id sT3d 3).map Task.status = some TaskStatus.Deleted ∧
    (task_completed sT3d 3 1).1 = .ok () ∧
    (get_task_by_id (task_completed sT3d 3 1).2 3).map Task.status =
      some TaskStatus.Completed := by
  decide

/-- C1 (amended): status transitions of the four operations, at any store.
A status never returns to `Pending`: completing yields `Completed` or leaves
the status unchanged; updating the description and transferring ownership
never change the status; deleting yields `Deleted` or leaves the status
unchanged.  Pending → Completed and any-status → Deleted are realized by the
owner's `task_completed` and `task_deleted`.  The operations touch no other
id.  (`Deleted` is NOT terminal: `task_completed` moves a Deleted task of
the caller to `Completed`, see the counterexample.) -/
theorem status_transitions_monotone (s : Store) (task_id : Nat)
    (caller new_owner : Addr) (nd : String) (t : Task)
    (ht : get_task_by_id s task_id = some t) :
    (∀ t1, get_task_by_id (task_completed s task_id caller).2 task_id = some t1 →
      t1.status = .Completed ∨ t1.status = t.status) ∧
    (∀ t1, get_task_by_id (update_task_description s task_id caller nd).2 task_id = some t1 →
      t1.status = t.status) ∧
    (∀ t1, get_task_by_id (task_deleted s task_id caller).2 task_id = some t1 →
      t1.status = .Deleted ∨ t1.status = t.status) ∧
    (∀ t1, get_task_by_id (transfer_ownership s task_id caller new_owner).2 task_id = some t1 →
      t1.status = t.status) ∧
    (t.status = .Pending → t.owner = caller →
      get_task_by_id (task_completed s task_id caller).2 task_id =
        some { t with status := .Completed }) ∧
    (t.owner = caller →
      get_task_by_id (task_deleted s task_id caller).2 task_id =
        some { t with status := .Deleted }) ∧
    (∀ j, j ≠ task_id →
      get_task_by_id (task_completed s task_id caller).2 j = get_task_by_id s j ∧
      get_task_by_id (update_task_description s task_id caller nd).2 j = get_task_by_id s j ∧
      get_task_by_id (task_deleted s task_id caller).2 j = get_task_by_id s j ∧
      get_task_by_id (transfer_ownership s task_id caller new_owner).2 j = get_task_by_id s j) := by
  refine ⟨?_, ?_, ?_, ?_, ?_, ?_, ?_⟩
  · intro t1 h1
    rcases task_completed_cases s task_id caller with hc | ⟨t2, hg2, _, _, hpost⟩
    · rw [hc, ht] at h1
      exact .inr (by cases h1; rfl)
    · rw [hpost] at h1
      simp [get_task_by_id, kvGet_kvSet_self] at h1
      exact .inl (by rw [← h1])
  · intro t1 h1
    rcases update_task_description_cases s task_id caller nd with hc | ⟨t2, hg2, _, _, _, hpost⟩
    · rw [hc, ht] at h1
      cases h1; rfl
    · rw [hpost] at h1
      simp [get_task_by_id, kvGet_kvSet_self] at h1
      rw [ht] at hg2
      cases hg2
      rw [← h1]
  · intro t1 h1
    rcases task_deleted_cases s task_id caller with hc | ⟨t2, hg2, _, hpost⟩
    · rw [hc, ht] at h1
      exact .inr (by cases h1; rfl)
    · rw [hpost] at h1
      simp [get_task_by_id, kvGet_kvSet_self] at h1
      exact .inl (by rw [← h1])
  · intro t1 h1
    rcases transfer_ownership_cases s task_id caller new_owner with hc | ⟨t2, hg2, _, hpost⟩
    · rw [hc, ht] at h1
      cases h1; rfl
    · rw [hpost] at h1
      simp [get_task_by_id, kvGet_kvSet_self] at h1
      rw [ht] at hg2
      cases hg2
      rw [← h1]
  · intro hst ho
    have hcomp : t.status ≠ .Completed := by rw [hst]; intro hh; cases hh
    have hrun : (task_completed s task_id caller).2 =
        { s with tasks := kvSet s.tasks task_id { t with status := .Completed } } := by
      simp [task_completed, ht, ho, hcomp]
    rw [hrun]
    simp [get_task_by_id, kvGet_kvSet_self]
  · intro ho
    have hrun : (task_deleted s task_id caller).2 =
        { s with tasks := kvSet s.tasks task_id { t with status := .Deleted } } := by
      simp [task_deleted, ht, ho]
    rw [hrun]
    simp [get_task_by_id, kvGet_kvSet_self]
  · intro j hj
    refine ⟨?_, ?_, ?_, ?_⟩
    · rcases task_completed_cases s task_id caller with hc | ⟨t2, _, _, _, hpost⟩
      · rw [hc]
      · rw [hpost]
        simp [get_task_by_id, kvGet_kvSet_ne _ _ _ _ hj]
    · rcases update_task_description_cases s task_id caller nd with hc | ⟨t2, _, _, _, _, hpost⟩
      · rw [hc]
      · rw [hpost]
        simp [get_task_by_id, kvGet_kvSet_ne _ _ _ _ hj]
    · rcases task_deleted_cases s task_id caller with hc | ⟨t2, _, _, hpost⟩
      · rw [hc]
      · rw [hpost]
        simp [get_task_by_id, kvGet_kvSet_ne _ _ _ _ hj]
    · rcases transfer_ownership_cases s task_id caller new_owner with hc | ⟨t2, _, _, hpost⟩
      · rw [hc]
      · rw [hpost]
        simp [get_task_by_id, kvGet_kvSet_ne _ _ _ _ hj]

/-- Witness for the amended C1 at concrete inputs: in the scenario store,
deleting the completed task 2 as owner 0 yields status `Deleted`, and a
lookup of the untouched task 1 is unaffected. -/
theorem status_transitions_monotone_witness :
    get_task_by_id (task_deleted sT4 2 0).2 2 = some { exTask2c with status := .Deleted } ∧
    get_task_by_id (task_deleted sT4 2 0).2 1 = get_task_by_id sT4 1 := by
  constructor
  · exact (status_transitions_monotone sT4 2 0 0 "z" exTask2c (by decide)).2.2.2.2.2.1
      (by decide)
  · exact ((status_transitions_monotone sT4 2 0 0 "z" exTask2c (by decide)).2.2.2.2.2.2
      1 (by decide)).2.2.1

/-- Closed form of `get_tasks_by_owner`: the filterMap of `live_view` over
the owner's index entry (empty when absent). -/
theorem get_tasks_by_owner_filterMap (s : Store) (owner : Addr) :
    get_tasks_by_owner s owner =
      ((kvGet s.ownerIndex owner).getD []).filterMap (live_view s) := by
  unfold get_tasks_by_owner
  cases h : kvGet s.ownerIndex owner with
  | none => simp
  | some task_ids =>
    dsimp only
    rw [foldl_push_if_live]
    simp

/-- Task 1 created by identity 2, then transferred to identity 0: identity
0 owns it but never had an index entry for it. -/
def trS1 : Store := (add_task Store.empty 0 "x" 2).2

def trS2 : Store := (transfer_ownership trS1 1 2 0).2

/-- Counterexample to C2 as stated: task 1 in `trS2` has owner 0 (it
reached 0 by transfer), a further transfer 0 → 1 succeeds and the task is
not `Deleted`, yet it does not appear in `get_tasks_by_owner` of the old
owner 0 — the claim's "still appears under A's index" fails. -/
theorem transfer_ownership_index_counterexample :
    (get_task_by_id trS2 1).map Task.owner = some 0 ∧
    (transfer_ownership trS2 1 0 1).1 = .ok () ∧
    (get_task_by_id (transfer_ownership trS2 1 0 1).2 1).map Task.status =
      some TaskStatus.Pending ∧
    get_tasks_by_owner (transfer_ownership trS2 1 0 1).2 0 = [] := by
  decide

/-- C2 (amended): after a successful `transfer_ownership(taskId, A, B)` the
direct lookup reports owner B; only the owner field of that one record
changes — every other record, every owner-index entry and the counter are
untouched — so each identity's indexed query keeps exactly the entries its
unchanged index gives it: the task appears under an identity o's query iff
taskId is in o's index entry (and the task is not Deleted), regardless of
whether o is A or B; and B, not A, is subsequently the caller authorized to
run `task_completed` and `task_deleted` on the task. -/
theorem transfer_ownership_effect (s : Store) (task_id : Nat) (a b : Addr)
    (t : Task) (ht : get_task_by_id s task_id = some t) (ho : t.owner = a) :
    (transfer_ownership s task_id a b).1 = .ok () ∧
    get_task_by_id (transfer_ownership s task_id a b).2 task_id =
      some { t with owner := b } ∧
    (∀ j, j ≠ task_id →
      get_task_by_id (transfer_ownership s task_id a b).2 j = get_task_by_id s j) ∧
    (transfer_ownership s task_id a b).2.ownerIndex = s.ownerIndex ∧
    (transfer_ownership s task_id a b).2.nextId = s.nextId ∧
    (∀ o, kvGet s.ownerIndex o = none →
      get_tasks_by_owner (transfer_ownership s task_id a b).2 o = []) ∧
    (∀ o entry, kvGet s.ownerIndex o = some entry → task_id ∈ entry →
      t.status ≠ .Deleted →
      { t with owner := b } ∈ get_tasks_by_owner (transfer_ownership s task_id a b).2 o) ∧
    (∀ o entry, kvGet s.ownerIndex o = some entry → task_id ∉ entry →
      get_tasks_by_owner (transfer_ownership s task_id a b).2 o =
        get_tasks_by_owner s o) ∧
    (a ≠ b →
      (task_completed (transfer_ownership s task_id a b).2 task_id a).1 =
        .error .Unauthorized ∧
      (task_deleted (transfer_ownership s task_id a b).2 task_id a).1 =
        .error .Unauthorized) ∧
    (task_deleted (transfer_ownership s task_id a b).2 task_id b).1 = .ok () ∧
    (task_completed (transfer_ownership s task_id a b).2 task_id b).1 ≠
      .error .Unauthorized := by
  have hrun : transfer_ownership s task_id a b =
      (.ok (), { s with tasks := kvSet s.tasks task_id { t with owner := b } }) := by
    simp [transfer_ownership, ht, ho]
  rw [hrun]
  dsimp only
  have hget2 : get_task_by_id
      { s with tasks := kvSet s.tasks task_id { t with owner := b } } task_id =
      some { t with owner := b } := by
    simp [get_task_by_id, kvGet_kvSet_self]
  have hframe : ∀ j, j ≠ task_id →
      get_task_by_id { s with tasks := kvSet s.tasks task_id { t with owner := b } } j =
      get_task_by_id s j := by
    intro j hj
    simp [get_task_by_id, kvGet_kvSet_ne _ _ _ _ hj]
  have hlive : ∀ j, j ≠ task_id →
      live_view { s with tasks := kvSet s.tasks task_id { t with owner := b } } j =
      live_view s j := by
    intro j hj
    unfold live_view
    rw [hframe j hj]
  refine ⟨rfl, hget2, hframe, rfl, rfl, ?_, ?_, ?_, ?_, ?_, ?_⟩
  · intro o hnone
    rw [get_tasks_by_owner_filterMap]
    simp [hnone]
  · intro o entry hentry hmem hst
    rw [get_tasks_by_owner_filterMap]
    simp only [hentry, Option.getD_some]
    refine List.mem_filterMap.mpr ⟨task_id, hmem, ?_⟩
    unfold live_view
    rw [hget2]
    simp [hst]
  · intro o entry hentry hnot
    rw [get_tasks_by_owner_filterMap, get_tasks_by_owner_filterMap]
    simp only [hentry, Option.getD_some]
    exact List.filterMap_congr
      (fun j hj => hlive j (fun he => hnot (he ▸ hj)))
  · intro hab
    have hba : ¬ b = a := fun hh => hab hh.symm
    constructor
    · simp [task_completed, hget2, hba]
    · simp [task_deleted, hget2, hba]
  · simp [task_deleted, hget2]
  · by_cases hst2 : t.status = .Completed
    · unfold task_completed
      rw [hget2]
      simp [hst2]
    · unfold task_completed
      rw [hget2]
      simp [hst2]

/-- Witness for the amended C2: transferring task 1 from owner 0 to owner 1
in the one-task store updates the direct lookup, locks out the old owner
and authorizes the new one. -/
theorem transfer_ownership_effect_witness :
    get_task_by_id (transfer_ownership sT1 1 0 1).2 1 = some { exTask1 with owner := 1 } ∧
    (task_completed (transfer_ownership sT1 1 0 1).2 1 0).1 = .error .Unauthorized ∧
    (task_deleted (transfer_ownership sT1 1 0 1).2 1 1).1 = .ok () := by
  have h := transfer_ownership_effect sT1 1 0 1 exTask1 (by decide) (by decide)
  exact ⟨h.2.1, (h.2.2.2.2.2.2.2.2.1 (by decide)).1, h.2.2.2.2.2.2.2.2.2.1⟩

end ToDoList
